import Mathlib

/-!
Verification of the kochab Gemini server framework (src/lib.rs) against its
natural-language specification.  The wire level is modelled with `List Nat`
(byte values), asynchronous I/O as explicit inputs (handshake outcome, bytes
sent by the client, durations of the timeout-bounded phases), and the
fallible Rust functions as `Except String` values mirroring the `anyhow`
context chains of the source.  The `types` and `util` modules of the
repository are not present under src/, so the data carriers they define
(`Request`, `Response`, `Body`, …) are modelled from the specification, as
marked on each definition.
-/

set_option autoImplicit false

deriving instance DecidableEq for Except

namespace Kochab

/-- Byte values CR and LF, as used by the request-line parser. -/
def CR : Nat := 13

/-- Byte value of the line-feed terminator. -/
def LF : Nat := 10

/-- src/lib.rs: `pub const REQUEST_URI_MAX_LEN: usize = 1024`. -/
def REQUEST_URI_MAX_LEN : Nat := 1024

/-- src/lib.rs: `pub const GEMINI_PORT: u16 = 1965`. -/
def GEMINI_PORT : Nat := 1965

/-- An opaque DER-encoded certificate, as a byte blob. -/
abbrev Certificate := List Nat

/-- An opaque DER-encoded private key, as a byte blob. -/
abbrev PrivateKey := List Nat

/-- Modelled from the spec: a parsed URI reference (external `uriparse`
crate); it retains the bytes it was parsed from. -/
structure URIReference where
  bytes : List Nat
  deriving DecidableEq

/-- Modelled from the spec (types module missing from src/): a `Request`
holds the client-supplied URI reference and an optional peer certificate. -/
structure Request where
  uri : URIReference
  cert : Option Certificate
  deriving DecidableEq

/-- Modelled from the spec: the single late-binding mutation attaching the
peer certificate to a `Request` after the TLS handshake. -/
def Request.set_cert (r : Request) (c : Option Certificate) : Request :=
  { r with cert := c }

/-- Shallow embedding of `uriparse::URIReference::try_from`: the syntactic
validity test of the external crate is a parameter `valid`; on success the
parsed reference retains exactly the input bytes. -/
def URIReference.try_from (valid : List Nat → Bool) (b : List Nat) :
    Option URIReference :=
  if valid b then some ⟨b⟩ else none

/-- Modelled from the spec: `Request::from_uri` may reject a
syntactically-valid URI (e.g. a missing scheme); the acceptance test is a
parameter.  The constructed request has no certificate attached yet. -/
def Request.from_uri (accept : URIReference → Bool) (u : URIReference) :
    Option Request :=
  if accept u then some ⟨u, none⟩ else none

/-- Modelled from the spec: a response status is a numeric code. -/
structure Status where
  code : Nat
  deriving DecidableEq

/-- Modelled from the spec: a response header is a status code plus the
short free-form meta text. -/
structure ResponseHeader where
  status : Status
  meta : String
  deriving DecidableEq

/-- Modelled from the spec: a body is either an in-memory byte sequence or
a streaming reader, the latter modelled by the list of chunks successive
reads deliver. -/
inductive Body where
  | bytes (content : List Nat)
  | reader (chunks : List (List Nat))
  deriving DecidableEq

/-- Modelled from the spec: a response is a header plus an optional body. -/
structure Response where
  header : ResponseHeader
  body : Option Body
  deriving DecidableEq

/-- Modelled from the spec: the generic server-error response constructor
used at the dispatch boundary; it carries a numeric server-error status
code and the meta text it is given, and is fallible in the source
(`Result<Response>`), though it never fails on the short strings used in
src/lib.rs. -/
def Response.server_error (meta : String) : Except String Response :=
  .ok ⟨⟨⟨50⟩, meta⟩, none⟩

/-- Mirrors `anyhow::Context::context`: prefix an error with a context
message. -/
def ctx {α : Type} (c : String) : Except String α → Except String α
  | .error e => .error (c ++ ": " ++ e)
  | .ok a => .ok a

/-! Request-line parsing (`receive_request`). -/

/-- The bytes `read_until(b LF)` consumes from a stream: everything up to
and including the first LF, or the whole stream if no LF occurs. -/
def takeUntilLF : List Nat → List Nat
  | [] => []
  | b :: bs => if b = LF then [LF] else b :: takeUntilLF bs

/-- `read_until(b LF)` on a stream limited by `take(limit)`: at most
`limit` bytes are consumed. -/
def read_until_lf (limit : Nat) (input : List Nat) : List Nat :=
  takeUntilLF (input.take limit)

/-- Test for `uri.ends_with(b CRLF)`. -/
def endsWithCRLF (l : List Nat) : Bool :=
  match l.reverse with
  | a :: b :: _ => a == LF && b == CR
  | _ => false

/-- Shallow embedding of `receive_request` (src/lib.rs): read one line from
the client limited to `REQUEST_URI_MAX_LEN + 2` bytes, demand a CRLF
terminator (reporting a too-long request when at least
`REQUEST_URI_MAX_LEN` bytes were read), strip the terminator, then parse
the URI reference and build the request.  The external URI-syntax test and
the request-construction acceptance test are parameters. -/
def receive_request (valid : List Nat → Bool) (accept : URIReference → Bool)
    (input : List Nat) : Except String Request :=
  let limit := REQUEST_URI_MAX_LEN + 2
  let uri := read_until_lf limit input
  if ¬ endsWithCRLF uri then
    if uri.length < REQUEST_URI_MAX_LEN then
      .error "Request header not terminated with CRLF"
    else
      .error "Request URI too long"
  else
    let stripped := uri.dropLast.dropLast
    match URIReference.try_from valid stripped with
    | none => .error "Request URI is invalid"
    | some u =>
      match Request.from_uri accept u with
      | none => .error "Failed to create request from URI"
      | some r => .ok r

/-! Response serialization. -/

/-- ASCII bytes of a string, modelling `str::as_bytes` on the ASCII
strings the server writes. -/
def strBytes (s : String) : List Nat :=
  s.data.map Char.toNat

/-- Shallow embedding of `send_response_header`: the header line is
`status SP meta CR LF`, the meta text written verbatim. -/
def send_response_header (h : ResponseHeader) : List Nat :=
  strBytes (toString h.status.code ++ " " ++ h.meta ++ "\r\n")

/-- Shallow embedding of `tokio::io::copy`: drain the reader chunk by
chunk, appending each chunk to the bytes already written. -/
def io_copy : List (List Nat) → List Nat → List Nat
  | [], acc => acc
  | c :: cs, acc => io_copy cs (acc ++ c)

/-- Shallow embedding of `send_response_body`: in-memory bytes are written
as-is, a reader is drained by `io_copy`. -/
def send_response_body : Body → List Nat
  | .bytes b => b
  | .reader chunks => io_copy chunks []

/-- Shallow embedding of `send_response`: write the header, then the body
if and only if one is present. -/
def send_response (r : Response) : List Nat :=
  match r.body with
  | some b => send_response_header r.header ++ send_response_body b
  | none => send_response_header r.header

/-! The connection handler (`Server::serve_client`). -/

/-- The outcome of awaiting the application handler for one request:
normal completion with a response, an ordinary error, or an abnormal
termination (panic). -/
inductive HandlerOutcome where
  | panic
  | error (e : String)
  | ok (r : Response)

/-- Modelled from the spec (util module missing from src/):
`HandlerCatchUnwind` converts an abnormal termination of the handler into
a failure result, leaving ordinary results untouched.  The panic payload
(modelled as `Unit`) is discarded by the caller. -/
def handler_catch_unwind :
    HandlerOutcome → Except Unit (Except String Response)
  | .panic => .error ()
  | .error e => .ok (.error e)
  | .ok r => .ok (.ok r)

/-- The dispatch stage of `serve_client`: catch a panic and replace it by
the generic server error; then replace an ordinary handler error by the
generic server error, logging the cause.  Returns the log lines emitted
and the response result as handed to `.context("Request handler failed")`. -/
def dispatch (h : HandlerOutcome) : List String × Except String Response :=
  let afterUnwind : Except String Response :=
    match handler_catch_unwind h with
    | .error _ => Response.server_error ""
    | .ok res => res
  match afterUnwind with
  | .error e => (["Handler failed: " ++ e], Response.server_error "")
  | .ok r => ([], .ok r)

/-- Mirrors `timeout(t, fut).await.context(c)?` followed by `?`: if the
wrapped operation's duration fits within the timeout its own result is
returned, otherwise the elapsed-timer error with context `c`. -/
def timeout_ctx {α : Type} (c : String) (t dur : Nat) (r : Except String α) :
    Except String α :=
  if dur ≤ t then r else .error c

/-- Extraction of the peer certificate from the TLS session:
`get_peer_certificates().and_then(|v| if v.is_empty() then None else Some(v.remove(0)))`. -/
def get_peer_certificate (chain : Option (List Certificate)) :
    Option Certificate :=
  chain.bind fun v =>
    match v with
    | [] => none
    | c :: _ => some c

/-- One incoming connection, as the connection handler observes it: the
TLS handshake outcome, the peer certificate chain the session reports, the
bytes the client sends, the behaviour of the application handler on the
dispatched request, and the wall-clock durations of the request phase, the
handler, and the response phase.  The source does not wrap the handler in
a timeout, so `serve_client` never consults `handlerDur`. -/
structure ClientConn where
  tlsHandshake : Except String Unit
  peerCerts : Option (List Certificate)
  wire : List Nat
  handler : Request → HandlerOutcome
  reqDur : Nat
  handlerDur : Nat
  respDur : Nat

/-- Observable outcome of `serve_client` on one connection: the log lines
emitted, the request handed to the application handler (if dispatch was
reached), the bytes written back to the client, and the final result. -/
structure ServeClientResult where
  logs : List String
  dispatched : Option Request
  sent : List Nat
  result : Except String Unit
  deriving DecidableEq

/-- Shallow embedding of `Server::serve_client`: under the configured
timeout, perform the TLS handshake and read the request line; attach the
peer certificate; dispatch to the handler with panics and errors converted
to the generic server error; then, under a second independent timeout,
serialize and flush the response. -/
def serve_client (t : Nat) (valid : List Nat → Bool)
    (accept : URIReference → Bool) (conn : ClientConn) : ServeClientResult :=
  let fut_accept_request : Except String Request :=
    match ctx "Failed to establish TLS session" conn.tlsHandshake with
    | .error e => .error e
    | .ok _ => ctx "Failed to receive request" (receive_request valid accept conn.wire)
  match timeout_ctx "Client timed out while waiting for response" t
      conn.reqDur fut_accept_request with
  | .error e => ⟨[], none, [], .error e⟩
  | .ok req =>
    let request := req.set_cert (get_peer_certificate conn.peerCerts)
    let d := dispatch (conn.handler request)
    match ctx "Request handler failed" d.2 with
    | .error e => ⟨d.1, some request, [], .error e⟩
    | .ok response =>
      match timeout_ctx "Client timed out receiving response data" t
          conn.respDur (Except.ok (send_response response)) with
      | .error e => ⟨d.1, some request, [], .error e⟩
      | .ok sent => ⟨d.1, some request, sent, .ok ()⟩

/-! The accept loop (`Server::serve`) and startup (`Builder::serve`). -/

/-- One step of the listener: either an accepted connection or an error
from `listener.accept()`. -/
inductive AcceptEvent where
  | conn (c : ClientConn)
  | err (e : String)

/-- Terminal state of the accept loop on a finite event trace: still
accepting (the loop never returns normally), or failed with an error. -/
inductive ServeOutcome where
  | running
  | failed (e : String)
  deriving DecidableEq

/-- Observable outcome of the accept loop: the results of the spawned
per-connection tasks, the log lines emitted, and whether the loop is
still running. -/
structure ServeResult where
  clients : List ServeClientResult
  logs : List String
  outcome : ServeOutcome
  deriving DecidableEq

/-- Log lines of the spawned task wrapper around `serve_client`:
`if let Err(err) = this.serve_client(stream).await error(err)`. -/
def spawn_log (r : ServeClientResult) : List String :=
  match r.result with
  | .error e => [e]
  | .ok _ => []

/-- Shallow embedding of `Server::serve`: accept connections in a loop,
spawning one `serve_client` task per connection (whose own failure is
logged, not propagated); an error from `accept()` itself is propagated
with context and ends the loop. -/
def Server.serve (t : Nat) (valid : List Nat → Bool)
    (accept : URIReference → Bool) : List AcceptEvent → ServeResult
  | [] => ⟨[], [], .running⟩
  | .err e :: _ => ⟨[], [], .failed ("Failed to accept client: " ++ e)⟩
  | .conn c :: rest =>
    let r := serve_client t valid accept c
    let tail := Server.serve t valid accept rest
    ⟨r :: tail.clients, (r.logs ++ spawn_log r) ++ tail.logs, tail.outcome⟩

/-! TLS configuration (`tls_config`, `load_cert_chain`, `load_key`). -/

/-- Shallow embedding of `load_cert_chain`: the pemfile parse of
`cert/cert.pem` either fails or yields a list of certificates, returned
without any emptiness check. -/
def load_cert_chain (parsed : Except Unit (List Certificate)) :
    Except String (List Certificate) :=
  match parsed with
  | .error _ => .error "failed to load certs"
  | .ok cs => .ok cs

/-- Shallow embedding of `load_key`: the pemfile parse of `cert/key.pem`
either fails or yields a list of keys; an empty list is rejected and
otherwise the first key is taken (`swap_remove(0)`). -/
def load_key (parsed : Except Unit (List PrivateKey)) :
    Except String PrivateKey :=
  match parsed with
  | .error _ => .error "failed to load key"
  | .ok ks =>
    match ks with
    | [] => .error "no key found"
    | k :: _ => .ok k

/-- The TLS configuration built at startup: the certificate chain and the
single private key handed to rustls. -/
structure TlsConfig where
  chain : List Certificate
  key : PrivateKey
  deriving DecidableEq

/-- Shallow embedding of `tls_config`: load the chain, load the key, and
hand both to rustls's `set_single_cert`, whose behaviour (external to this
repository) is a parameter. -/
def tls_config
    (set_single_cert : List Certificate → PrivateKey → Except String Unit)
    (certsParsed : Except Unit (List Certificate))
    (keysParsed : Except Unit (List PrivateKey)) : Except String TlsConfig :=
  match ctx "Failed to load TLS certificate" (load_cert_chain certsParsed) with
  | .error e => .error e
  | .ok chain =>
    match ctx "Failed to load TLS key" (load_key keysParsed) with
    | .error e => .error e
    | .ok key =>
      match ctx "Failed to use loaded TLS certificate" (set_single_cert chain key) with
      | .error e => .error e
      | .ok _ => .ok ⟨chain, key⟩

/-- The builder accumulating configuration before `serve`; the timeout is
in seconds. -/
structure Builder where
  timeout : Nat

/-- `Builder::bind`: the default timeout is `Duration::from_secs(30)`. -/
def Builder.bind : Builder := ⟨30⟩

/-- `Builder::set_timeout`: replace the configured timeout. -/
def Builder.set_timeout (b : Builder) (t : Nat) : Builder :=
  { b with timeout := t }

/-- Shallow embedding of `Builder::serve`: build the TLS configuration,
then bind the socket, then run the accept loop; a failure of either setup
step is fatal before any connection is accepted. -/
def Builder.serve (b : Builder)
    (set_single_cert : List Certificate → PrivateKey → Except String Unit)
    (certsParsed : Except Unit (List Certificate))
    (keysParsed : Except Unit (List PrivateKey))
    (bindResult : Except String Unit)
    (valid : List Nat → Bool) (accept : URIReference → Bool)
    (events : List AcceptEvent) : ServeResult :=
  match ctx "Failed to create TLS config" (tls_config set_single_cert certsParsed keysParsed) with
  | .error e => ⟨[], [], .failed e⟩
  | .ok _ =>
    match ctx "Failed to create socket" bindResult with
    | .error e => ⟨[], [], .failed e⟩
    | .ok _ => Server.serve b.timeout valid accept events

/-! The client-certificate verifier (`AllowAnonOrSelfsignedClient`). -/

/-- A server name indication value, opaque here. -/
abbrev DNSName := String

/-- A distinguished name advertised as an acceptable CA subject. -/
abbrev DistinguishedName := List Nat

/-- The affirmative verification token returned by a client-certificate
verifier. -/
inductive ClientCertVerified where
  | assertion
  deriving DecidableEq

/-- `AllowAnonOrSelfsignedClient::client_auth_root_subjects`: advertise an
empty set of acceptable certificate-authority subjects. -/
def AllowAnonOrSelfsignedClient.client_auth_root_subjects
    (_sni : Option DNSName) : Option (List DistinguishedName) :=
  some []

/-- `AllowAnonOrSelfsignedClient::client_auth_mandatory`: client
certificates are optional. -/
def AllowAnonOrSelfsignedClient.client_auth_mandatory
    (_sni : Option DNSName) : Option Bool :=
  some false

/-- `AllowAnonOrSelfsignedClient::verify_client_cert`: any offered
certificate chain is verified unconditionally. -/
def AllowAnonOrSelfsignedClient.verify_client_cert
    (_certs : List Certificate) (_sni : Option DNSName) :
    Except String ClientCertVerified :=
  .ok .assertion

/-! Concrete instances used to run the model on explicit inputs. -/

/-- A URI-syntax test accepting every byte sequence, for concrete runs. -/
def validAll : List Nat → Bool := fun _ => true

/-- A request-construction test accepting every URI reference. -/
def acceptAll : URIReference → Bool := fun _ => true

/-- A concrete connection whose handler fails with an ordinary error. -/
def errConn : ClientConn :=
  ⟨.ok (), none, strBytes "gemini://h/\r\n", fun _ => .error "db broke", 0, 0, 0⟩

/-- A concrete connection whose handler completes normally. -/
def okConn : ClientConn :=
  ⟨.ok (), some [[1, 2], [3]], strBytes "gemini://h/\r\n",
    fun _ => .ok ⟨⟨⟨20⟩, "text/gemini"⟩, none⟩, 0, 0, 0⟩

/-- A concrete rustls `set_single_cert` behaviour: reject an empty chain,
demand that the key match (here: equal) the leaf certificate. -/
def sscExact : List Certificate → PrivateKey → Except String Unit :=
  fun chain k =>
    match chain with
    | [] => .error "empty certificate chain"
    | c :: _ => if k = c then .ok () else .error "key mismatch"

/-! Helper lemmas about the request-line reader. -/

theorem takeUntilLF_no_lf (b : List Nat) (h : LF ∉ b) : takeUntilLF b = b := by
  induction b with
  | nil => rfl
  | cons x xs ih =>
    have hx : ¬ x = LF := fun hx => h (hx ▸ List.mem_cons_self x xs)
    simp [takeUntilLF, hx, ih (fun hm => h (List.mem_cons_of_mem x hm))]

theorem takeUntilLF_append_lf (b r : List Nat) (h : LF ∉ b) :
    takeUntilLF (b ++ LF :: r) = b ++ [LF] := by
  induction b with
  | nil => simp [takeUntilLF]
  | cons x xs ih =>
    have hx : ¬ x = LF := fun hx => h (hx ▸ List.mem_cons_self x xs)
    simp [takeUntilLF, hx, ih (fun hm => h (List.mem_cons_of_mem x hm))]

theorem read_until_lf_within (limit : Nat) (b r : List Nat) (h : LF ∉ b)
    (hlen : b.length + 1 ≤ limit) :
    read_until_lf limit (b ++ LF :: r) = b ++ [LF] := by
  unfold read_until_lf
  rw [List.take_append_eq_append_take,
    List.take_of_length_le (Nat.le_of_succ_le hlen)]
  have h1 : 1 ≤ limit - b.length := by omega
  obtain ⟨k, hk⟩ : ∃ k, limit - b.length = k + 1 :=
    ⟨limit - b.length - 1, by omega⟩
  rw [hk, List.take_succ_cons]
  exact takeUntilLF_append_lf b _ h

theorem read_until_lf_over (limit : Nat) (b r : List Nat) (h : LF ∉ b)
    (hlen : limit ≤ b.length) :
    read_until_lf limit (b ++ r) = b.take limit := by
  unfold read_until_lf
  rw [List.take_append_eq_append_take, Nat.sub_eq_zero_of_le hlen,
    List.take_zero, List.append_nil]
  exact takeUntilLF_no_lf _ (fun hm => h ((List.take_sublist _ _).mem hm))

theorem endsWithCRLF_append_crlf (b : List Nat) :
    endsWithCRLF (b ++ [CR, LF]) = true := by
  simp [endsWithCRLF, List.reverse_append]

theorem endsWithCRLF_append_lf (b : List Nat) (h : b.getLast? ≠ some CR) :
    endsWithCRLF (b ++ [LF]) = false := by
  unfold endsWithCRLF
  rw [List.reverse_append]
  cases hb : b.reverse with
  | nil => rfl
  | cons c tl =>
    have hc : b.getLast? = some c := by
      rw [← List.head?_reverse, hb]; rfl
    have hne : ¬ c = CR := fun he => h (by rw [hc, he])
    simp [hne]

theorem endsWithCRLF_no_lf (b : List Nat) (h : LF ∉ b) :
    endsWithCRLF b = false := by
  unfold endsWithCRLF
  cases hb : b.reverse with
  | nil => rfl
  | cons c tl =>
    have hc : c ∈ b := List.mem_reverse.mp (hb ▸ List.mem_cons_self c tl)
    have hne : ¬ c = LF := fun he => h (he ▸ hc)
    cases tl with
    | nil => rfl
    | cons d tl2 => simp [hne]

/-! Claim C1. -/

/-- Claim C1 counterexample: a single (e.g. transient) failure of
`listener.accept()` is NOT logged and terminates the accept loop — the
connection arriving right after the failure is never served, no log line
is emitted, and `serve` fails with the accept error.  This refutes the
claim that such a failure is logged and leaves the loop running. -/
theorem serve_accept_failure_counterexample :
    Server.serve 30 validAll acceptAll
        [.err "transient", .conn okConn] =
      ⟨[], [], .failed "Failed to accept client: transient"⟩ := by
  decide

/-- Claim C1 (amended): every failure of `accept()` — the code does not
distinguish transient failures from an unusable listener — terminates the
accept loop and propagates as the error of the whole serve operation with
context attached; the connections accepted before the failure were each
handed to their own task, and events after the failure are never
processed. -/
theorem serve_accept_failure_fatal (t : Nat) (valid : List Nat → Bool)
    (accept : URIReference → Bool) (pre : List AcceptEvent) (e : String)
    (post : List AcceptEvent)
    (h : ∀ ev ∈ pre, ∃ c, ev = AcceptEvent.conn c) :
    (Server.serve t valid accept (pre ++ .err e :: post)).outcome =
      .failed ("Failed to accept client: " ++ e) ∧
    (Server.serve t valid accept (pre ++ .err e :: post)).clients.length =
      pre.length := by
  induction pre with
  | nil => exact ⟨rfl, rfl⟩
  | cons ev rest ih =>
    obtain ⟨c, rfl⟩ := h ev (List.mem_cons_self ev rest)
    have ih2 := ih (fun ev2 hm => h ev2 (List.mem_cons_of_mem _ hm))
    exact ⟨by simpa [Server.serve] using ih2.1,
      by simpa [Server.serve] using ih2.2⟩

/-- Witness for `serve_accept_failure_fatal` at a concrete trace: one
served connection, then an accept failure. -/
theorem serve_accept_failure_fatal_witness :
    (∀ ev ∈ [AcceptEvent.conn okConn], ∃ c, ev = AcceptEvent.conn c) ∧
    ((Server.serve 30 validAll acceptAll
        ([AcceptEvent.conn okConn] ++ .err "boom" :: [])).outcome =
      .failed ("Failed to accept client: " ++ "boom") ∧
     (Server.serve 30 validAll acceptAll
        ([AcceptEvent.conn okConn] ++ .err "boom" :: [])).clients.length =
      [AcceptEvent.conn okConn].length) := by
  have h : ∀ ev ∈ [AcceptEvent.conn okConn], ∃ c, ev = AcceptEvent.conn c :=
    fun ev hm => ⟨okConn, List.mem_singleton.mp hm⟩
  exact ⟨h, serve_accept_failure_fatal 30 validAll acceptAll _ "boom" [] h⟩

/-! Claim C2. -/

set_option maxRecDepth 80000 in
/-- Claim C2 counterexample: the input line of 1023 bytes of content
followed by a bare LF (no CR) fails with the too-long error, not the
not-CRLF-terminated error, although its first terminator is a bare LF and
the 1026-byte read budget was not exhausted (only 1024 bytes were read).
The two failure cases are distinguished by whether fewer than 1024 bytes
were read, not by budget exhaustion. -/
theorem receive_request_bare_lf_counterexample :
    receive_request validAll acceptAll (List.replicate 1023 97 ++ [LF]) =
      .error "Request URI too long" ∧
    (List.replicate 1023 97 ++ [LF]).length < REQUEST_URI_MAX_LEN + 2 := by
  exact ⟨by decide, by decide⟩

/-- Claim C2 (amended): for an input whose first line terminator is a bare
LF not preceded by CR, parsing fails with the not-CRLF-terminated error
exactly when fewer than 1024 bytes (terminator included) were consumed,
and with the too-long error otherwise; the discriminant is the 1024-byte
length test on the bytes read, not exhaustion of the 1026-byte budget. -/
theorem receive_request_bare_lf (valid : List Nat → Bool)
    (accept : URIReference → Bool) (b rest : List Nat)
    (hLF : LF ∉ b) (hCR : b.getLast? ≠ some CR) :
    receive_request valid accept (b ++ LF :: rest) =
      if b.length + 1 < REQUEST_URI_MAX_LEN then
        .error "Request header not terminated with CRLF"
      else
        .error "Request URI too long" := by
  by_cases hle : b.length + 1 ≤ REQUEST_URI_MAX_LEN + 2
  · have h1 := read_until_lf_within (REQUEST_URI_MAX_LEN + 2) b rest hLF hle
    have h2 := endsWithCRLF_append_lf b hCR
    simp only [receive_request, h1, h2]
    simp [List.length_append]
  · have hge : REQUEST_URI_MAX_LEN + 2 ≤ b.length := by omega
    have h1 : read_until_lf (REQUEST_URI_MAX_LEN + 2) (b ++ LF :: rest) =
        b.take (REQUEST_URI_MAX_LEN + 2) :=
      read_until_lf_over _ b (LF :: rest) hLF hge
    have hsub : LF ∉ b.take (REQUEST_URI_MAX_LEN + 2) :=
      fun hm => hLF ((List.take_sublist _ _).mem hm)
    have h2 := endsWithCRLF_no_lf _ hsub
    have hlen : (b.take (REQUEST_URI_MAX_LEN + 2)).length =
        REQUEST_URI_MAX_LEN + 2 := by
      rw [List.length_take]
      omega
    simp only [receive_request, h1, h2]
    rw [if_pos (by simp), hlen]
    rw [if_neg (by decide),
      if_neg (by simp only [REQUEST_URI_MAX_LEN] at hge ⊢; omega)]

/-- Witness for `receive_request_bare_lf` at the concrete short line
`GET /foo` followed by a bare LF, which yields the not-CRLF-terminated
error. -/
theorem receive_request_bare_lf_witness :
    (LF ∉ strBytes "GET /foo" ∧
      (strBytes "GET /foo").getLast? ≠ some CR) ∧
    receive_request validAll acceptAll (strBytes "GET /foo" ++ LF :: []) =
      (if (strBytes "GET /foo").length + 1 < REQUEST_URI_MAX_LEN then
        .error "Request header not terminated with CRLF"
      else
        .error "Request URI too long") := by
  exact ⟨⟨by decide, by decide⟩,
    receive_request_bare_lf validAll acceptAll _ [] (by decide) (by decide)⟩

/-! Claim C4. -/

/-- Claim C4: for at most 1024 bytes of URI content (containing no LF)
terminated by exactly CR LF, where the content parses as a URI reference
(`try_from` succeeds) and is acceptable to request construction
(`from_uri` succeeds), `receive_request` succeeds and the request's URI is
exactly the input bytes with the trailing CR LF stripped. -/
theorem receive_request_valid_uri (valid : List Nat → Bool)
    (accept : URIReference → Bool) (b rest : List Nat)
    (u : URIReference) (r : Request)
    (hlen : b.length ≤ REQUEST_URI_MAX_LEN) (hLF : LF ∉ b)
    (hu : URIReference.try_from valid b = some u)
    (hr : Request.from_uri accept u = some r) :
    receive_request valid accept (b ++ CR :: LF :: rest) = .ok r ∧
    r.uri.bytes = b := by
  have hLF2 : LF ∉ b ++ [CR] := by
    intro hm
    rcases List.mem_append.mp hm with hm1 | hm2
    · exact hLF hm1
    · simp [CR, LF] at hm2
  have heq : b ++ CR :: LF :: rest = (b ++ [CR]) ++ LF :: rest := by simp
  have h1 : read_until_lf (REQUEST_URI_MAX_LEN + 2) (b ++ CR :: LF :: rest) =
      b ++ [CR, LF] := by
    rw [heq, read_until_lf_within (REQUEST_URI_MAX_LEN + 2) (b ++ [CR]) rest hLF2
      (by simp; omega)]
    simp
  have h2 : endsWithCRLF (b ++ [CR, LF]) = true := endsWithCRLF_append_crlf b
  have h3 : (b ++ [CR, LF]).dropLast.dropLast = b := by
    have : b ++ [CR, LF] = (b ++ [CR]) ++ [LF] := by simp
    rw [this, List.dropLast_concat, List.dropLast_concat]
  have hub : u = ⟨b⟩ := by
    unfold URIReference.try_from at hu
    by_cases hv : valid b
    · simp [hv] at hu
      exact hu.symm
    · simp [hv] at hu
  have hrr : r = ⟨u, none⟩ := by
    unfold Request.from_uri at hr
    by_cases ha : accept u
    · simp [ha] at hr
      exact hr.symm
    · simp [ha] at hr
  refine ⟨?_, by rw [hrr, hub]⟩
  simp only [receive_request, h1, h2]
  rw [if_neg (by simp)]
  rw [h3, hu]
  simp [hr]

/-- Witness for `receive_request_valid_uri` at the concrete request line
`gemini://host/` followed by CR LF. -/
theorem receive_request_valid_uri_witness :
    ((strBytes "gemini://host/").length ≤ REQUEST_URI_MAX_LEN ∧
      LF ∉ strBytes "gemini://host/" ∧
      URIReference.try_from validAll (strBytes "gemini://host/") =
        some ⟨strBytes "gemini://host/"⟩ ∧
      Request.from_uri acceptAll ⟨strBytes "gemini://host/"⟩ =
        some ⟨⟨strBytes "gemini://host/"⟩, none⟩) ∧
    receive_request validAll acceptAll
        (strBytes "gemini://host/" ++ CR :: LF :: []) =
      .ok ⟨⟨strBytes "gemini://host/"⟩, none⟩ ∧
    (⟨⟨strBytes "gemini://host/"⟩, none⟩ : Request).uri.bytes =
      strBytes "gemini://host/" := by
  exact ⟨⟨by decide, by decide, by decide, by decide⟩,
    receive_request_valid_uri validAll acceptAll (strBytes "gemini://host/") []
      ⟨strBytes "gemini://host/"⟩ ⟨⟨strBytes "gemini://host/"⟩, none⟩
      (by decide) (by decide) (by decide) (by decide)⟩

/-! Claim C3. -/

/-- Claim C3 counterexample: when the handler fails, the generic
server-error response actually delivered has EMPTY meta text (the source
passes the empty string to `Response::server_error`), refuting the claimed
non-empty meta text; moreover a panic's underlying cause is not logged by
the dispatch path (only an ordinary error is), refuting the claim that the
cause is always logged server-side. -/
theorem serve_client_handler_failure_counterexample :
    (serve_client 30 validAll acceptAll errConn).result = .ok () ∧
    (serve_client 30 validAll acceptAll errConn).sent =
      send_response ⟨⟨⟨50⟩, ""⟩, none⟩ ∧
    dispatch (.error "db broke") =
      (["Handler failed: " ++ "db broke"], .ok ⟨⟨⟨50⟩, ""⟩, none⟩) ∧
    dispatch .panic = ([], .ok ⟨⟨⟨50⟩, ""⟩, none⟩) := by
  exact ⟨by decide, by decide, by decide, by decide⟩

/-- Claim C3 (amended): whenever the handler panics or returns an ordinary
error during dispatch, the connection is not torn down — serve_client
completes normally and the client receives the serialization of the
generic server-error response, whose status is the numeric code 50 and
whose meta text is the EMPTY string (so the underlying cause never appears
in the client-visible meta text); the cause is logged server-side only
when the handler returned an ordinary error, and a panic produces no
dispatch-path log line. -/
theorem serve_client_handler_failure (t : Nat) (valid : List Nat → Bool)
    (accept : URIReference → Bool) (conn : ClientConn) (req : Request)
    (hreq : conn.reqDur ≤ t) (hresp : conn.respDur ≤ t)
    (htls : conn.tlsHandshake = .ok ())
    (hrecv : receive_request valid accept conn.wire = .ok req)
    (hfail :
      conn.handler (req.set_cert (get_peer_certificate conn.peerCerts)) = .panic ∨
      ∃ e, conn.handler (req.set_cert (get_peer_certificate conn.peerCerts)) = .error e) :
    (serve_client t valid accept conn).result = .ok () ∧
    (serve_client t valid accept conn).sent = send_response ⟨⟨⟨50⟩, ""⟩, none⟩ ∧
    (conn.handler (req.set_cert (get_peer_certificate conn.peerCerts)) = .panic →
      (serve_client t valid accept conn).logs = []) ∧
    (∀ e, conn.handler (req.set_cert (get_peer_certificate conn.peerCerts)) = .error e →
      (serve_client t valid accept conn).logs = ["Handler failed: " ++ e]) := by
  rcases hfail with hp | ⟨e, he⟩
  · have : serve_client t valid accept conn =
        ⟨[], some (req.set_cert (get_peer_certificate conn.peerCerts)),
          send_response ⟨⟨⟨50⟩, ""⟩, none⟩, .ok ()⟩ := by
      simp [serve_client, timeout_ctx, hreq, hresp, htls, ctx, hrecv, hp,
        dispatch, handler_catch_unwind, Response.server_error]
    rw [this]
    refine ⟨rfl, rfl, fun _ => rfl, fun e2 he2 => ?_⟩
    rw [hp] at he2
    exact absurd he2 (by simp)
  · have : serve_client t valid accept conn =
        ⟨["Handler failed: " ++ e],
          some (req.set_cert (get_peer_certificate conn.peerCerts)),
          send_response ⟨⟨⟨50⟩, ""⟩, none⟩, .ok ()⟩ := by
      simp [serve_client, timeout_ctx, hreq, hresp, htls, ctx, hrecv, he,
        dispatch, handler_catch_unwind, Response.server_error]
    rw [this]
    refine ⟨rfl, rfl, fun hp2 => ?_, fun e2 he2 => ?_⟩
    · rw [he] at hp2
      exact absurd hp2 (by simp)
    · rw [he] at he2
      simp at he2
      rw [he2]

/-- Witness for `serve_client_handler_failure` on a concrete connection
whose handler returns an ordinary error. -/
theorem serve_client_handler_failure_witness :
    (errConn.reqDur ≤ 30 ∧ errConn.respDur ≤ 30 ∧
      errConn.tlsHandshake = .ok () ∧
      receive_request validAll acceptAll errConn.wire =
        .ok ⟨⟨strBytes "gemini://h/"⟩, none⟩) ∧
    (serve_client 30 validAll acceptAll errConn).result = .ok () ∧
    (serve_client 30 validAll acceptAll errConn).sent =
      send_response ⟨⟨⟨50⟩, ""⟩, none⟩ ∧
    (errConn.handler ((⟨⟨strBytes "gemini://h/"⟩, none⟩ : Request).set_cert
        (get_peer_certificate errConn.peerCerts)) = .panic →
      (serve_client 30 validAll acceptAll errConn).logs = []) := by
  have h := serve_client_handler_failure 30 validAll acceptAll errConn
    ⟨⟨strBytes "gemini://h/"⟩, none⟩ (by decide) (by decide) (by decide)
    (by decide) (Or.inr ⟨"db broke", rfl⟩)
  exact ⟨⟨by decide, by decide, by decide, by decide⟩, h.1, h.2.1, h.2.2.1⟩

/-! Claim C5. -/

/-- Claim C5: startup fails, before any connection is accepted (no client
task spawned, no event processed), whenever the TLS configuration cannot
be built; in particular when the key file yields no parseable private key,
or — under rustls's documented rejection of an empty chain, taken as a
hypothesis on the external `set_single_cert` — when no certificate is
found in the certificate-chain file; and exactly one private key is used,
the first, which `set_single_cert` must accept against the loaded chain
(extra keys are ignored). -/
theorem tls_startup_failures (b : Builder)
    (ssc : List Certificate → PrivateKey → Except String Unit)
    (bindResult : Except String Unit) (valid : List Nat → Bool)
    (accept : URIReference → Bool) (events : List AcceptEvent) :
    (∀ cs, Builder.serve b ssc (.ok cs) (.ok []) bindResult valid accept events =
      ⟨[], [], .failed "Failed to create TLS config: Failed to load TLS key: no key found"⟩) ∧
    (∀ k ks e, (∀ k2, ssc [] k2 = .error e) →
      Builder.serve b ssc (.ok []) (.ok (k :: ks)) bindResult valid accept events =
      ⟨[], [],
        .failed ("Failed to create TLS config: " ++ ("Failed to use loaded TLS certificate: " ++ e))⟩) ∧
    (∀ chain k ks,
      (tls_config ssc (.ok chain) (.ok (k :: ks)) = .ok ⟨chain, k⟩ ↔
        ssc chain k = .ok ())) ∧
    (∀ chain k ks ks2,
      tls_config ssc (.ok chain) (.ok (k :: ks)) =
      tls_config ssc (.ok chain) (.ok (k :: ks2))) ∧
    (∀ certsParsed keysParsed e,
      tls_config ssc certsParsed keysParsed = .error e →
      Builder.serve b ssc certsParsed keysParsed bindResult valid accept events =
      ⟨[], [], .failed ("Failed to create TLS config: " ++ e)⟩) := by
  refine ⟨?_, ?_, ?_, ?_, ?_⟩
  · intro cs
    simp [Builder.serve, tls_config, load_cert_chain, load_key, ctx]
  · intro k ks e hssc
    simp [Builder.serve, tls_config, load_cert_chain, load_key, ctx, hssc k]
  · intro chain k ks
    cases hc : ssc chain k with
    | error e2 => simp [tls_config, load_cert_chain, load_key, ctx, hc]
    | ok u => simp [tls_config, load_cert_chain, load_key, ctx, hc]
  · intro chain k ks ks2
    rfl
  · intro certsParsed keysParsed e htc
    simp [Builder.serve, ctx, htc]

/-- Witness for `tls_startup_failures` with the concrete `set_single_cert`
behaviour `sscExact`: an empty key list, an empty certificate list, a
matching pair, and extra ignored keys. -/
theorem tls_startup_failures_witness :
    (∀ k2, sscExact [] k2 = .error "empty certificate chain") ∧
    Builder.serve Builder.bind sscExact (.ok [[7]]) (.ok []) (.ok ())
        validAll acceptAll [] =
      ⟨[], [], .failed "Failed to create TLS config: Failed to load TLS key: no key found"⟩ ∧
    Builder.serve Builder.bind sscExact (.ok []) (.ok [[9]]) (.ok ())
        validAll acceptAll [] =
      ⟨[], [],
        .failed ("Failed to create TLS config: " ++
          ("Failed to use loaded TLS certificate: " ++ "empty certificate chain"))⟩ ∧
    (tls_config sscExact (.ok [[7]]) (.ok [[7], [8]]) = .ok ⟨[[7]], [7]⟩ ↔
      sscExact [[7]] [7] = .ok ()) := by
  have hssc : ∀ k2, sscExact [] k2 = .error "empty certificate chain" :=
    fun k2 => rfl
  have h := tls_startup_failures Builder.bind sscExact (.ok ())
    validAll acceptAll []
  exact ⟨hssc, h.1 [[7]], h.2.1 [9] [] "empty certificate chain" hssc,
    h.2.2.1 [[7]] [7] [[8]]⟩

/-! Claim C6. -/

/-- Draining a reader appends its chunks, in order, to the bytes already
written. -/
theorem io_copy_eq_flatten (cs : List (List Nat)) :
    ∀ acc, io_copy cs acc = acc ++ cs.flatten := by
  induction cs with
  | nil => intro acc; simp [io_copy]
  | cons c cs2 ih => intro acc; simp [io_copy, ih]

/-- Claim C6: serializing a `Body::Reader` writes exactly the same bytes
as serializing a `Body::Bytes` holding the identical content; in
particular a reader of N content bytes produces exactly N body bytes on
the wire. -/
theorem send_response_body_reader_eq_bytes (chunks : List (List Nat)) :
    send_response_body (.reader chunks) =
      send_response_body (.bytes chunks.flatten) ∧
    (send_response_body (.reader chunks)).length = chunks.flatten.length := by
  have h : send_response_body (.reader chunks) = chunks.flatten := by
    simp [send_response_body, io_copy_eq_flatten]
  exact ⟨h, by rw [h]⟩

/-! Claim C7. -/

/-- Claim C7: a response serializes to the numeric status code, a single
space, the meta text verbatim, then CR LF, with no body bytes when the
body is absent; concretely, status 20 with meta text/gemini and no body
serializes to exactly the bytes of `20 text/gemini` followed by CR LF. -/
theorem send_response_header_format :
    (∀ (code : Nat) (meta : String),
      send_response ⟨⟨⟨code⟩, meta⟩, none⟩ =
        strBytes (toString code ++ " " ++ meta ++ "\r\n")) ∧
    send_response ⟨⟨⟨20⟩, "text/gemini"⟩, none⟩ =
      [50, 48, 32, 116, 101, 120, 116, 47, 103, 101, 109, 105, 110, 105, 13, 10] := by
  exact ⟨fun code meta => rfl, by decide⟩

/-! Claim C8. -/

/-- Claim C8: the client-certificate verifier advertises an empty list of
acceptable certificate-authority subjects, declares client certificates
optional, and returns the verified assertion unconditionally for any
offered certificate chain. -/
theorem allow_anon_client_policy :
    (∀ sni, AllowAnonOrSelfsignedClient.client_auth_root_subjects sni = some []) ∧
    (∀ sni, AllowAnonOrSelfsignedClient.client_auth_mandatory sni = some false) ∧
    (∀ certs sni,
      AllowAnonOrSelfsignedClient.verify_client_cert certs sni = .ok .assertion) := by
  exact ⟨fun _ => rfl, fun _ => rfl, fun _ _ => rfl⟩

/-! Claim C9. -/

/-- The dispatch stage always hands a successful response to the response
phase: a panic or handler error is replaced by the generic server error,
which never fails. -/
theorem dispatch_result_ok (h : HandlerOutcome) : ∃ r, (dispatch h).2 = .ok r := by
  cases h with
  | panic => exact ⟨_, rfl⟩
  | error e => exact ⟨_, rfl⟩
  | ok r => exact ⟨_, rfl⟩

/-- Claim C9: the configured timeout defaults to 30 seconds and is set by
`set_timeout`; within each connection it is applied twice and
independently — once bounding the request phase (TLS handshake plus
request-line read), whose expiry fails the connection with the
waiting-for-response message regardless of everything else, and once
bounding the response phase (serialize plus flush), whose expiry fails the
connection with the receiving-response message; the handler dispatch
between the two phases is bounded by neither timeout (`serve_client` is
invariant under the handler's duration). -/
theorem two_independent_timeouts :
    Builder.bind.timeout = 30 ∧
    (∀ (b : Builder) (d : Nat), (b.set_timeout d).timeout = d) ∧
    (∀ (t : Nat) (valid : List Nat → Bool) (accept : URIReference → Bool)
      (conn : ClientConn), t < conn.reqDur →
      (serve_client t valid accept conn).result =
        .error "Client timed out while waiting for response") ∧
    (∀ (t : Nat) (valid : List Nat → Bool) (accept : URIReference → Bool)
      (conn : ClientConn) (req : Request), conn.reqDur ≤ t →
      conn.tlsHandshake = .ok () →
      receive_request valid accept conn.wire = .ok req →
      t < conn.respDur →
      (serve_client t valid accept conn).result =
        .error "Client timed out receiving response data") ∧
    (∀ (t : Nat) (valid : List Nat → Bool) (accept : URIReference → Bool)
      (conn : ClientConn) (d1 d2 : Nat),
      serve_client t valid accept { conn with handlerDur := d1 } =
      serve_client t valid accept { conn with handlerDur := d2 }) := by
  refine ⟨rfl, fun _ _ => rfl, ?_, ?_, ?_⟩
  · intro t valid accept conn hlt
    have hnot : ¬ conn.reqDur ≤ t := by omega
    simp [serve_client, timeout_ctx, hnot]
  · intro t valid accept conn req hreq htls hrecv hlt
    have hnot : ¬ conn.respDur ≤ t := by omega
    obtain ⟨r, hr⟩ := dispatch_result_ok
      (conn.handler (req.set_cert (get_peer_certificate conn.peerCerts)))
    simp [serve_client, timeout_ctx, hreq, htls, ctx, hrecv, hr, hnot]
  · intro t valid accept conn d1 d2
    rfl

/-- Witness for `two_independent_timeouts`: with a zero timeout a
connection whose request phase takes one tick fails with the
request-phase message, and with timeout 30 a successful request phase
followed by a 31-tick response phase fails with the response-phase
message. -/
theorem two_independent_timeouts_witness :
    ((0 : Nat) < ({ errConn with reqDur := 1 } : ClientConn).reqDur ∧
      (serve_client 0 validAll acceptAll { errConn with reqDur := 1 }).result =
        .error "Client timed out while waiting for response") ∧
    (({ errConn with respDur := 31 } : ClientConn).reqDur ≤ 30 ∧
      (30 : Nat) < ({ errConn with respDur := 31 } : ClientConn).respDur ∧
      (serve_client 30 validAll acceptAll { errConn with respDur := 31 }).result =
        .error "Client timed out receiving response data") := by
  refine ⟨⟨by decide, ?_⟩, ⟨by decide, by decide, ?_⟩⟩
  · exact two_independent_timeouts.2.2.1 0 validAll acceptAll
      { errConn with reqDur := 1 } (by decide)
  · exact two_independent_timeouts.2.2.2.1 30 validAll acceptAll
      { errConn with respDur := 31 } ⟨⟨strBytes "gemini://h/"⟩, none⟩
      (by decide) (by decide) (by decide) (by decide)

/-! Claim C10. -/

/-- Claim C10: the peer certificate attached to the request before
dispatch is the first certificate of the chain the TLS session reports; a
present-but-empty chain yields none, observably identical to no chain at
all — `serve_client` produces the very same outcome for both — and only a
non-empty chain yields some, holding its first certificate. -/
theorem peer_certificate_extraction (t : Nat) (valid : List Nat → Bool)
    (accept : URIReference → Bool) (conn : ClientConn) (req : Request)
    (hreq : conn.reqDur ≤ t) (htls : conn.tlsHandshake = .ok ())
    (hrecv : receive_request valid accept conn.wire = .ok req) :
    (serve_client t valid accept conn).dispatched =
      some (req.set_cert (get_peer_certificate conn.peerCerts)) ∧
    get_peer_certificate (some []) = get_peer_certificate none ∧
    (conn.peerCerts = some [] →
      (serve_client t valid accept conn).dispatched = some (req.set_cert none) ∧
      serve_client t valid accept conn =
        serve_client t valid accept { conn with peerCerts := none }) ∧
    (∀ c cs, conn.peerCerts = some (c :: cs) →
      (serve_client t valid accept conn).dispatched =
        some (req.set_cert (some c))) := by
  have hdisp : ∀ (cc : ClientConn), cc.reqDur ≤ t → cc.tlsHandshake = .ok () →
      receive_request valid accept cc.wire = .ok req →
      (serve_client t valid accept cc).dispatched =
        some (req.set_cert (get_peer_certificate cc.peerCerts)) := by
    intro cc h1 h2 h3
    obtain ⟨r, hr⟩ := dispatch_result_ok
      (cc.handler (req.set_cert (get_peer_certificate cc.peerCerts)))
    by_cases hresp : cc.respDur ≤ t
    · simp [serve_client, timeout_ctx, h1, h2, ctx, h3, hr, hresp]
    · simp [serve_client, timeout_ctx, h1, h2, ctx, h3, hr, hresp]
  refine ⟨hdisp conn hreq htls hrecv, rfl, ?_, ?_⟩
  · intro hempty
    constructor
    · rw [hdisp conn hreq htls hrecv, hempty]
      rfl
    · have : get_peer_certificate conn.peerCerts =
          get_peer_certificate ({ conn with peerCerts := none } : ClientConn).peerCerts := by
        rw [hempty]
        rfl
      simp [serve_client, this]
  · intro c cs hcons
    rw [hdisp conn hreq htls hrecv, hcons]
    rfl

/-- Witness for `peer_certificate_extraction` on a concrete connection
reporting a two-certificate chain: the request dispatched to the handler
carries the first certificate. -/
theorem peer_certificate_extraction_witness :
    (okConn.reqDur ≤ 30 ∧ okConn.tlsHandshake = .ok () ∧
      receive_request validAll acceptAll okConn.wire =
        .ok ⟨⟨strBytes "gemini://h/"⟩, none⟩ ∧
      okConn.peerCerts = some [[1, 2], [3]]) ∧
    (serve_client 30 validAll acceptAll okConn).dispatched =
      some ((⟨⟨strBytes "gemini://h/"⟩, none⟩ : Request).set_cert (some [1, 2])) := by
  have h := peer_certificate_extraction 30 validAll acceptAll okConn
    ⟨⟨strBytes "gemini://h/"⟩, none⟩ (by decide) (by decide) (by decide)
  exact ⟨⟨by decide, by decide, by decide, by decide⟩,
    h.2.2.2 [1, 2] [[3]] rfl⟩

end Kochab
